import Mathlib

/-!
# Document-verifier frontend: session-gated workflow controllers

A shallow embedding of the React client under `frontend/src`:

* `components/AppShell.js` : the session load at startup, logout, and the route table
  whose elements depend on the stored identity (the route guard);
* `pages/Login.js`, `pages/Register.js`, `pages/Upload.js`, `pages/Verify.js`,
  `pages/AdminPanel.js` : the asynchronous event handlers.

JavaScript values are a tree datatype; an `async` handler is a term of `Proc`, a tree of
synchronous effects, awaited requests and exceptions, on which `try / catch / finally`
are defined by recursion.  A component instance executes such a term until it suspends
at an `await`; the suspended continuation is resumed when the request settles.
The platform functions `JSON.parse` and `JSON.stringify` are parameters of the
definitions that call them.
-/

namespace DocVerifier

/-! ## JavaScript values -/

/-- Values that the handlers manipulate: the JSON data model plus `undefined`.
Numbers carry an integer (the numeric fields of this API are identifiers). -/
inductive JSVal where
  | undefined
  | null
  | bool (b : Bool)
  | num (n : Int)
  | str (s : String)
  | arr (items : List JSVal)
  | obj (fields : List (String × JSVal))

namespace JSVal

/-- ToBoolean: `undefined`, `null`, `false`, `0` and `""` are falsy, the rest is truthy. -/
def truthy : JSVal → Bool
  | undefined => false
  | null => false
  | bool b => b
  | num n => n != 0
  | str s => s != ""
  | arr _ => true
  | obj _ => true

/-- The object thrown by a property read on `undefined` or `null`. -/
def typeError : JSVal :=
  obj [("name", str "TypeError")]

/-- Property read `v.key` for the data properties this program reads (`data`, `user`,
`role`, `user_id`, `response`, `error`, `message`, `pending_documents`): it throws on
`undefined` and `null`, looks the key up in an object, and is `undefined` on the other
values, which carry none of these properties. -/
def getMember (v : JSVal) (key : String) : Except JSVal JSVal :=
  match v with
  | undefined => .error typeError
  | null => .error typeError
  | obj fields => .ok ((fields.lookup key).getD undefined)
  | _ => .ok undefined

/-- Optional chaining `v?.key`. -/
def optMember (v : JSVal) (key : String) : Except JSVal JSVal :=
  match v with
  | undefined => .ok undefined
  | null => .ok undefined
  | _ => getMember v key

/-- The expression `err.response?.data?.field`. -/
def responseField (err : JSVal) (field : String) : Except JSVal JSVal := do
  let response ← getMember err "response"
  let data ← optMember response "data"
  optMember data field

/-- The operator `a || b` on already evaluated operands. -/
def or (a b : JSVal) : JSVal :=
  if a.truthy then a else b

/-- Strict equality `v === "s"` against a string literal. -/
def strictEqStr (v : JSVal) (s : String) : Bool :=
  match v with
  | str t => t == s
  | _ => false

end JSVal

open JSVal

/-! ## The route guard of `AppShell` -/

/-- The elements a route of `AppShell` can render. -/
inductive Element where
  | Home
  | Login
  | Register
  | Upload (user : JSVal)
  | Dashboard (user : JSVal)
  | Verify
  | AdminPanel (user : JSVal)
  | NotFound
  | Navigate (target : String)

namespace AppShell

/-- The `<Routes>` table of `AppShell`, in source order, for the identity `user`. -/
def routes (user : JSVal) : List (String × Element) :=
  [ ("/", .Home),
    ("/login", .Login),
    ("/register", .Register),
    ("/upload", if user.truthy then .Upload user else .Navigate "/login"),
    ("/dashboard", if user.truthy then .Dashboard user else .Navigate "/login"),
    ("/verify", .Verify),
    ("/admin",
      if user.truthy && (match getMember user "role" with
                         | .ok role => strictEqStr role "admin"
                         | .error _ => false)
      then .AdminPanel user else .Navigate "/login"),
    ("*", .NotFound) ]

/-- Route selection for a location: the route whose literal pattern is the location,
and the catch-all `*` route when there is none. -/
def routeElement (path : String) (user : JSVal) : Element :=
  match (routes user).lookup path with
  | some el => el
  | none => ((routes user).lookup "*").getD .NotFound

/-- The initialiser of the `user` state, lines 15-21:
`try { return JSON.parse(localStorage.getItem("dv_user")); } catch { return null; }`.
`getItem` gives `null` for a missing key, which `JSON.parse` reads as the text `null`. -/
def initUser (jsonParse : String → Except JSVal JSVal) (storage : List (String × String)) :
    Except JSVal JSVal :=
  try
    jsonParse ((storage.lookup "dv_user").getD "null")
  catch _ =>
    pure JSVal.null

end AppShell

/-! ## Effects, requests and asynchronous handlers -/

/-- A file chosen in the file input of the upload page. -/
structure File where
  name : String

/-- One piece of a request URL: literal text, or a value substituted by a template
literal `${v}`. -/
inductive UrlPiece where
  | lit (s : String)
  | subst (v : JSVal)

/-- A value appended to a `FormData`, as it is passed to `append` (a value that is not a
file is sent as its text). -/
inductive FormEntry where
  | file (f : File)
  | value (v : JSVal)

/-- The payload of a request. -/
inductive Body where
  | empty
  | json (v : JSVal)
  | form (entries : List (String × FormEntry))

/-- The HTTP verb of a request. -/
inductive Method where
  | GET
  | POST

/-- A request handed to axios. -/
structure Req where
  method : Method
  url : List UrlPiece
  body : Body
  headers : List (String × String)

/-- The form value appended under `name` in the payload of a request. -/
def Req.formField (r : Req) (name : String) : Option FormEntry :=
  match r.body with
  | .form entries => entries.lookup name
  | _ => none

/-- Synchronous effects of the handlers. `setUser` is the state setter of `AppShell`,
which it passes to `Login` as `onLogin` and to `Register` as `onRegister`. -/
inductive Eff where
  | preventDefault
  | alert (msg : JSVal)
  | consoleError (v : JSVal)
  | setItem (key value : String)
  | removeItem (key : String)
  | setUser (u : JSVal)
  | navigate (path : String)
  | setLoading (b : Bool)
  | setResult (v : JSVal)
  | setPending (v : JSVal)

/-- The body of an `async` function with result type `α`: it returns, throws, performs
an effect, awaits the settlement of a request, or calls another `async` function
without awaiting it. -/
inductive Proc : Type → Type 1 where
  | ret {α : Type} (a : α) : Proc α
  | throw {α : Type} (e : JSVal) : Proc α
  | eff {α : Type} (e : Eff) (k : Proc α) : Proc α
  | await {α : Type} (r : Req) (k : Except JSVal JSVal → Proc α) : Proc α
  | fork {α : Type} (child : Proc Unit) (k : Proc α) : Proc α

namespace Proc

/-- Sequencing. -/
def bind {α β : Type} : Proc α → (α → Proc β) → Proc β
  | .ret a, f => f a
  | .throw e, _ => .throw e
  | .eff e k, f => .eff e (k.bind f)
  | .await r k, f => .await r (fun x => (k x).bind f)
  | .fork c k, f => .fork c (k.bind f)

/-- The statement `try { p } catch (err) { h err }`. An exception of a call that is not
awaited rejects that call's promise and does not reach the handler. -/
def tryCatch {α : Type} : Proc α → (JSVal → Proc α) → Proc α
  | .ret a, _ => .ret a
  | .throw e, h => h e
  | .eff e k, h => .eff e (k.tryCatch h)
  | .await r k, h => .await r (fun x => (k x).tryCatch h)
  | .fork c k, h => .fork c (k.tryCatch h)

/-- The statement `try { p } finally { f }`: `f` runs on both exits, and an
exception of `f` replaces the exit of `p`. -/
def tryFinally' {α β : Type} : Proc α → (Option α → Proc β) → Proc (α × β)
  | .ret a, f => (f (some a)).bind fun b => .ret (a, b)
  | .throw e, f => (f none).bind fun _ => .throw e
  | .eff e k, f => .eff e (k.tryFinally' f)
  | .await r k, f => .await r (fun x => (k x).tryFinally' f)
  | .fork c k, f => .fork c (k.tryFinally' f)

instance : Monad Proc where
  pure := Proc.ret
  bind := Proc.bind

instance : MonadExcept JSVal Proc where
  throw := Proc.throw
  tryCatch := Proc.tryCatch

instance : MonadFinally Proc where
  tryFinally' := Proc.tryFinally'

/-- One synchronous effect. -/
def perform (e : Eff) : Proc Unit :=
  .eff e (.ret ())

/-- Evaluation of an expression that can throw. -/
def eval {α : Type} : Except JSVal α → Proc α
  | .ok a => .ret a
  | .error e => .throw e

/-- The expression `await axios(req)`: the response when the promise is fulfilled, a
throw of the error when it is rejected. -/
def request (r : Req) : Proc JSVal :=
  .await r eval

/-- A call `f()` of an `async` function whose promise is dropped. -/
def spawn (child : Proc Unit) : Proc Unit :=
  .fork child (.ret ())

end Proc

open Proc (perform eval request spawn)

/-- The call `axios.post(url, data)` with a JSON payload. -/
def axiosPost (url : List UrlPiece) (data : JSVal) : Req :=
  { method := .POST, url := url, body := .json data, headers := [] }

/-- The call `axios.get(url)`. -/
def axiosGet (url : List UrlPiece) : Req :=
  { method := .GET, url := url, body := .empty, headers := [] }

/-- What `localStorage.setItem` stores for the result of `JSON.stringify`, which is a
string, or `undefined` (stored as the text `undefined`). -/
def storedText : Option String → String
  | some s => s
  | none => "undefined"

/-! ## Component instances -/

/-- A handler suspended at an `await`: the request in flight and the continuation. -/
structure Suspended where
  req : Req
  resume : Except JSVal JSVal → Proc Unit

/-- An observable event of an instance. -/
inductive Ev where
  | eff (e : Eff)
  | request (r : Req)
  | uncaught (e : JSVal)

/-- A mounted component with state `σ`: its state, the handlers suspended on a request
in flight, and the events so far. -/
structure Inst (σ : Type) where
  st : σ
  inflight : List Suspended
  log : List Ev

/-- Runs a handler body until it finishes or suspends. An `await` issues the request
and parks the continuation; an exception that leaves the body is an unhandled
rejection. -/
def Proc.exec {σ α : Type} (apply : Eff → σ → σ) : Proc α → Inst σ → Inst σ
  | .ret _, i => i
  | .throw e, i => { i with log := i.log ++ [.uncaught e] }
  | .eff e k, i => k.exec apply { i with st := apply e i.st, log := i.log ++ [.eff e] }
  | .await r k, i =>
      { i with inflight := i.inflight ++ [⟨r, fun x => (k x).bind fun _ => .ret ()⟩],
               log := i.log ++ [.request r] }
  | .fork c k, i => k.exec apply (c.exec apply i)

namespace Inst

/-- The request at position `n` of the requests in flight settles with `r`: its
handler resumes. -/
def settle {σ : Type} (apply : Eff → σ → σ) (n : Nat) (r : Except JSVal JSVal)
    (i : Inst σ) : Inst σ :=
  match i.inflight.get? n with
  | none => i
  | some t => (t.resume r).exec apply { i with inflight := i.inflight.eraseIdx n }

/-- The requests issued so far. -/
def requests {σ : Type} (i : Inst σ) : List Req :=
  i.log.filterMap fun ev => match ev with
    | .request r => some r
    | _ => none

/-- The effects performed so far. -/
def effects {σ : Type} (i : Inst σ) : List Eff :=
  i.log.filterMap fun ev => match ev with
    | .eff e => some e
    | _ => none

end Inst

/-! ## `AppShell`: session state -/

namespace AppShell

/-- State owned by `AppShell` and its environment: the `user` state, `localStorage`,
and the router location. -/
structure State where
  user : JSVal
  storage : List (String × String)
  location : String

/-- Effect of the synchronous operations on the session state. -/
def apply : Eff → State → State
  | .setItem k v, s => { s with storage := (k, v) :: s.storage.filter (fun e => e.1 != k) }
  | .removeItem k, s => { s with storage := s.storage.filter (fun e => e.1 != k) }
  | .setUser u, s => { s with user := u }
  | .navigate p, s => { s with location := p }
  | _, s => s

/-- Body of `handleLogout`, lines 23-26. -/
def handleLogout : Proc Unit := do
  perform (.removeItem "dv_user")
  perform (.setUser .null)

/-- The element rendered at the current location. -/
def view (s : State) : Element :=
  routeElement s.location s.user

end AppShell

/-! ## `Login` -/

namespace Login

/-- The URL of the login endpoint. -/
def loginUrl : List UrlPiece :=
  [.lit "http://127.0.0.1:5000/login"]

/-- The login request: `axios.post(".../login", { email, password })`. -/
def loginReq (email password : String) : Req :=
  axiosPost loginUrl (.obj [("email", .str email), ("password", .str password)])

/-- Body of `submit`, lines 10-24, for the field values `email` and `password`. -/
def submit (jsonStringify : JSVal → Option String) (email password : String) : Proc Unit := do
  perform .preventDefault
  try
    let res ← request (loginReq email password)
    let data ← eval (getMember res "data")
    let user ← eval (getMember data "user")
    perform (.setItem "dv_user" (storedText (jsonStringify user)))
    perform (.setUser user)
    perform (.navigate "/dashboard")
  catch err =>
    let msg ← eval (responseField err "error")
    perform (.alert (JSVal.or msg (.str "Login failed")))

end Login

/-! ## `Register` -/

namespace Register

/-- The URL of the registration endpoint. -/
def registerUrl : List UrlPiece :=
  [.lit "http://127.0.0.1:5000/register"]

/-- The registration request: `axios.post(".../register", { name, email, password })`. -/
def registerReq (name email password : String) : Req :=
  axiosPost registerUrl
    (.obj [("name", .str name), ("email", .str email), ("password", .str password)])

/-- Body of `submit`, lines 11-32, for the field values `name`, `email`, `password`. -/
def submit (jsonStringify : JSVal → Option String) (name email password : String) :
    Proc Unit := do
  perform .preventDefault
  try
    let _ ← request (registerReq name email password)
    let loginRes ← request (Login.loginReq email password)
    let data ← eval (getMember loginRes "data")
    let user ← eval (getMember data "user")
    perform (.setItem "dv_user" (storedText (jsonStringify user)))
    perform (.setUser user)
    perform (.navigate "/dashboard")
  catch err =>
    let msg ← eval (responseField err "error")
    perform (.alert (JSVal.or msg (.str "Registration failed")))

end Register

/-! ## `Upload` -/

namespace Upload

/-- State of the `Upload` component, lines 5-8. -/
structure State where
  file : Option File
  docType : String
  loading : Bool
  result : JSVal

/-- The state on mount. -/
def State.init : State :=
  { file := none, docType := "aadhaar", loading := false, result := .null }

/-- Effect of the state setters used by `submit`. -/
def apply : Eff → State → State
  | .setLoading b, s => { s with loading := b }
  | .setResult v, s => { s with result := v }
  | _, s => s

/-- The upload request of lines 15-22 for the form value `uid` of `user_id`. -/
def uploadReq (f : File) (uid : JSVal) (docType : String) : Req :=
  { method := .POST,
    url := [.lit "http://127.0.0.1:5000/upload"],
    body := .form [("file", .file f), ("user_id", .value uid), ("doc_type", .value (.str docType))],
    headers := [("Content-Type", "multipart/form-data")] }

/-- Body of `submit`, lines 10-29, for the props and state it closes over. -/
def submit (user : JSVal) (file : Option File) (docType : String) : Proc Unit :=
  match file with
  | none => perform (.alert (.str "Select a file"))
  | some f => do
    perform (.setLoading true)
    try
      let uid ← eval (getMember user "user_id")
      let res ← request (uploadReq f (JSVal.or uid (.num 1)) docType)
      let data ← eval (getMember res "data")
      perform (.setResult data)
    catch err =>
      let msg ← eval (responseField err "error")
      perform (.alert (JSVal.or msg (.str "Upload failed")))
    finally
      perform (.setLoading false)

/-- A mounted `Upload`: the component instance, and the state as of the last render.
The rendered state is what the view shows and what its handlers close over: the button
is rendered with `disabled={loading}` (line 60) and `onClick={submit}`, where `submit`
reads the `file` and `docType` of that render. A state setter changes the instance
state at once and the view only at the next render. -/
structure Mounted where
  inst : Inst State
  rendered : State

/-- The component on mount. -/
def Mounted.init : Mounted :=
  { inst := { st := State.init, inflight := [], log := [] }, rendered := State.init }

/-- Events on a mounted `Upload`: a file is chosen, a document type is selected, the
Upload button is clicked, the request in flight at a position settles, React renders
the component again. -/
inductive Event where
  | chooseFile (f : Option File)
  | chooseDocType (t : String)
  | click
  | settle (n : Nat) (r : Except JSVal JSVal)
  | render

/-- One step of a mounted `Upload` with prop `user`. A click on a button rendered
disabled does nothing; otherwise it calls the `submit` of the last render, which itself
never reads `loading`. -/
def step (user : JSVal) (m : Mounted) : Event → Mounted
  | .chooseFile f => { m with inst := { m.inst with st := { m.inst.st with file := f } } }
  | .chooseDocType t =>
    { m with inst := { m.inst with st := { m.inst.st with docType := t } } }
  | .click =>
    if m.rendered.loading then m
    else { m with inst := (submit user m.rendered.file m.rendered.docType).exec apply m.inst }
  | .settle n r => { m with inst := m.inst.settle apply n r }
  | .render => { m with rendered := m.inst.st }

/-- The component after a list of events, from mount. -/
def run (user : JSVal) (evs : List Event) : Mounted :=
  evs.foldl (step user) Mounted.init

/-- Every click of the run `evs` from `m` arrives on a view whose rendered `loading` is
the current one, that is, the component has rendered since `loading` last changed. -/
def clicksSeeLoading (user : JSVal) : Mounted → List Event → Bool
  | _, [] => true
  | m, ev :: rest =>
    (match ev with
      | .click => m.rendered.loading == m.inst.st.loading
      | _ => true) && clicksSeeLoading user (step user m ev) rest

/-- A suspended upload handler that, whatever the settlement, clears `loading` and
issues no request. -/
def Resets (t : Suspended) : Prop :=
  ∀ (r : Except JSVal JSVal) (j : Inst State),
    ((t.resume r).exec apply j).st.loading = false ∧
    ((t.resume r).exec apply j).inflight = j.inflight

/-- Invariant of a mounted `Upload`: at most one request is in flight, none when
`loading` is false, and the suspended handler resets `loading`. -/
def Inv (i : Inst State) : Prop :=
  i.inflight.length ≤ 1 ∧ (i.st.loading = false → i.inflight = []) ∧
  ∀ t ∈ i.inflight, Resets t

end Upload

/-! ## `Verify` -/

/-- The code points that `String.prototype.trim` strips: WhiteSpace and LineTerminator. -/
def isJsSpace (c : Char) : Bool :=
  c.val ∈ [0x9, 0xA, 0xB, 0xC, 0xD, 0x20, 0xA0, 0x1680, 0x2028, 0x2029, 0x202F, 0x205F,
    0x3000, 0xFEFF] || (0x2000 ≤ c.val && c.val ≤ 0x200A)

/-- The method `String.prototype.trim`. -/
def jsTrim (s : String) : String :=
  ⟨((s.data.dropWhile isJsSpace).reverse.dropWhile isJsSpace).reverse⟩

namespace Verify

/-- State of the `Verify` component, lines 5-6. -/
structure State where
  hash : String
  result : JSVal

/-- Effect of the state setter used by `submit`. -/
def apply : Eff → State → State
  | .setResult v, s => { s with result := v }
  | _, s => s

/-- Body of `submit`, lines 8-17, for the text `hash` of the input. -/
def submit (hash : String) : Proc Unit :=
  if !(JSVal.str (jsTrim hash)).truthy then
    perform (.alert (.str "Enter hash"))
  else
    try
      let res ← request (axiosGet [.lit "http://127.0.0.1:5000/verify/", .subst (.str hash)])
      let data ← eval (getMember res "data")
      perform (.setResult data)
    catch err =>
      let msg ← eval (responseField err "message")
      perform (.alert (JSVal.or msg (.str "Verification failed")))

/-- User events on a mounted `Verify`. The Verify button is never disabled. -/
inductive Event where
  | type (text : String)
  | click
  | settle (n : Nat) (r : Except JSVal JSVal)

/-- One step of a mounted `Verify`. The input is controlled (`value={hash}`), so the
view has rendered the typed text before the button can be clicked, and `submit` has no
state of its own to go stale. -/
def step (i : Inst State) : Event → Inst State
  | .type text => { i with st := { i.st with hash := text } }
  | .click => (submit i.st.hash).exec apply i
  | .settle n r => i.settle apply n r

/-- The instance after a list of events, from mount. -/
def run (evs : List Event) : Inst State :=
  evs.foldl step { st := { hash := "", result := .null }, inflight := [], log := [] }

end Verify

/-! ## `AdminPanel` -/

namespace AdminPanel

/-- State of the `AdminPanel` component, line 5. -/
structure State where
  pending : JSVal

/-- Effect of the state setter. -/
def apply : Eff → State → State
  | .setPending v, s => { s with pending := v }
  | _, s => s

/-- The request of `fetchPending`. -/
def pendingReq : Req :=
  axiosGet [.lit "http://127.0.0.1:5000/admin/pending"]

/-- Body of `fetchPending`, lines 11-18. -/
def fetchPending : Proc Unit := do
  try
    let res ← request pendingReq
    let data ← eval (getMember res "data")
    let docs ← eval (getMember data "pending_documents")
    perform (.setPending (JSVal.or docs (.arr [])))
  catch err =>
    perform (.consoleError err)

/-- The request of `handleAction`: the review decision for `doc_id`. -/
def decisionReq (adminId doc_id status : JSVal) : Req :=
  axiosPost [.lit "http://127.0.0.1:5000/admin/verify/", .subst doc_id]
    (.obj [("admin_id", adminId), ("status", status),
           ("remarks", .str (if strictEqStr status "verified" then "Approved" else "Rejected"))])

/-- Body of `handleAction`, lines 20-32, for the prop `user`. -/
def handleAction (user doc_id status : JSVal) : Proc Unit := do
  try
    let adminId ← eval (getMember user "user_id")
    let _ ← request (decisionReq adminId doc_id status)
    spawn fetchPending
    perform (.alert (.str "Action taken"))
  catch _ =>
    perform (.alert (.str "Action failed"))

end AdminPanel

/-! ## A JSON codec on the value model

Used to instantiate the `jsonParse` and `jsonStringify` parameters on concrete inputs. -/

namespace Sample

/-- The hexadecimal digit of a number below sixteen. -/
def hexDigit (n : Nat) : Char :=
  if n < 10 then Char.ofNat (48 + n) else Char.ofNat (87 + n)

/-- Escape of one character inside a JSON string, as `JSON.stringify` writes it. -/
def escapeChar (c : Char) : List Char :=
  if c = '"' then ['\\', '"']
  else if c = '\\' then ['\\', '\\']
  else if c.val = 0x8 then ['\\', 'b']
  else if c.val = 0xC then ['\\', 'f']
  else if c = '\n' then ['\\', 'n']
  else if c = '\r' then ['\\', 'r']
  else if c = '\t' then ['\\', 't']
  else if c.val < 0x20 then ['\\', 'u', '0', '0', hexDigit (c.toNat / 16), hexDigit (c.toNat % 16)]
  else [c]

/-- A quoted JSON string. -/
def quote (s : String) : String :=
  ⟨'"' :: (s.data.flatMap escapeChar) ++ ['"']⟩

mutual
/-- Serialisation of a value, after `JSON.stringify`: `undefined` has none. -/
def jsonStringify : JSVal → Option String
  | .undefined => none
  | .null => some "null"
  | .bool b => some (if b then "true" else "false")
  | .num n => some (toString n)
  | .str s => some (quote s)
  | .arr items => some ("[" ++ ",".intercalate (stringifyItems items) ++ "]")
  | .obj fields => some ("\x7b" ++ ",".intercalate (stringifyFields fields) ++ "\x7d")
/-- Serialisation of array items: `undefined` is written `null`. -/
def stringifyItems : List JSVal → List String
  | [] => []
  | v :: vs => (jsonStringify v).getD "null" :: stringifyItems vs
/-- Serialisation of object members: `undefined` members are dropped. -/
def stringifyFields : List (String × JSVal) → List String
  | [] => []
  | (k, v) :: rest =>
    match jsonStringify v with
    | some t => (quote k ++ ":" ++ t) :: stringifyFields rest
    | none => stringifyFields rest
end

/-- JSON white space. -/
def isWs (c : Char) : Bool :=
  c = ' ' || c = '\n' || c = '\r' || c = '\t'

/-- Reads the characters of a string up to the closing quote; `\u` escapes are not
read. -/
def readString : List Char → List Char → Option (String × List Char)
  | [], _ => none
  | '"' :: rest, acc => some (⟨acc.reverse⟩, rest)
  | '\\' :: c :: rest, acc =>
    if c = '"' then readString rest ('"' :: acc)
    else if c = '\\' then readString rest ('\\' :: acc)
    else if c = '/' then readString rest ('/' :: acc)
    else if c = 'b' then readString rest (Char.ofNat 0x8 :: acc)
    else if c = 'f' then readString rest (Char.ofNat 0xC :: acc)
    else if c = 'n' then readString rest ('\n' :: acc)
    else if c = 'r' then readString rest ('\r' :: acc)
    else if c = 't' then readString rest ('\t' :: acc)
    else none
  | c :: rest, acc => if c.val < 0x20 then none else readString rest (c :: acc)

/-- Value of a run of decimal digits. -/
def digitsVal (ds : List Char) : Nat :=
  ds.foldl (fun acc c => 10 * acc + (c.toNat - 48)) 0

/-- Reads an integer literal: an optional minus sign, then `0` or a run of digits that
does not start with `0`. Fractions and exponents are outside the value model. -/
def readInt (cs : List Char) : Option (Int × List Char) :=
  let (neg, body) := match cs with
    | '-' :: rest => (true, rest)
    | _ => (false, cs)
  let ds := body.takeWhile Char.isDigit
  let rest := body.dropWhile Char.isDigit
  if ds = [] then none
  else if ds.head? = some '0' ∧ ds.length > 1 then none
  else some (if neg then - (digitsVal ds : Int) else (digitsVal ds : Int), rest)

mutual
/-- Reads one value. -/
def readValue : Nat → List Char → Option (JSVal × List Char)
  | 0, _ => none
  | fuel + 1, cs =>
    match cs.dropWhile isWs with
    | 'n' :: 'u' :: 'l' :: 'l' :: rest => some (.null, rest)
    | 't' :: 'r' :: 'u' :: 'e' :: rest => some (.bool true, rest)
    | 'f' :: 'a' :: 'l' :: 's' :: 'e' :: rest => some (.bool false, rest)
    | '"' :: rest => (readString rest []).map fun (s, r) => (.str s, r)
    | '[' :: rest =>
      match rest.dropWhile isWs with
      | ']' :: r => some (.arr [], r)
      | _ => (readItems fuel rest).map fun (vs, r) => (.arr vs, r)
    | '\x7b' :: rest =>
      match rest.dropWhile isWs with
      | '\x7d' :: r => some (.obj [], r)
      | _ => (readMembers fuel rest).map fun (fs, r) => (.obj fs, r)
    | other => (readInt other).map fun (n, r) => (.num n, r)
/-- Reads the items of a non-empty array, up to the closing bracket. -/
def readItems : Nat → List Char → Option (List JSVal × List Char)
  | 0, _ => none
  | fuel + 1, cs =>
    match readValue fuel cs with
    | none => none
    | some (v, r) =>
      match r.dropWhile isWs with
      | ',' :: r1 => (readItems fuel r1).map fun (vs, r2) => (v :: vs, r2)
      | ']' :: r1 => some ([v], r1)
      | _ => none
/-- Reads the members of a non-empty object, up to the closing brace. -/
def readMembers : Nat → List Char → Option (List (String × JSVal) × List Char)
  | 0, _ => none
  | fuel + 1, cs =>
    match cs.dropWhile isWs with
    | '"' :: r0 =>
      match readString r0 [] with
      | none => none
      | some (k, r1) =>
        match r1.dropWhile isWs with
        | ':' :: r2 =>
          match readValue fuel r2 with
          | none => none
          | some (v, r3) =>
            match r3.dropWhile isWs with
            | ',' :: r4 => (readMembers fuel r4).map fun (fs, r5) => ((k, v) :: fs, r5)
            | '\x7d' :: r4 => some ([(k, v)], r4)
            | _ => none
        | _ => none
    | _ => none
end

/-- The object thrown for a text that is not JSON. -/
def parseError : JSVal :=
  .obj [("name", .str "SyntaxError")]

/-- A reader of JSON text, after `JSON.parse`: the value of the text, or a throw of a
`SyntaxError`. -/
def jsonParse (text : String) : Except JSVal JSVal :=
  match readValue (2 * text.length + 2) text.data with
  | some (v, rest) => if rest.all isWs then .ok v else .error parseError
  | none => .error parseError

/-- The identity of the login scenario: `{user_id: 1, name: "A", role: "user"}`. -/
def userA : JSVal :=
  .obj [("user_id", .num 1), ("name", .str "A"), ("role", .str "user")]

/-- An axios response whose payload is `data`. -/
def response (data : JSVal) : JSVal :=
  .obj [("data", data), ("status", .num 200)]

/-- An axios error without a response (the server was not reached). -/
def networkError : JSVal :=
  .obj [("message", .str "Network Error")]

/-- An axios error carrying the server's `{error: msg}` payload. -/
def serverError (status : Int) (msg : String) : JSVal :=
  .obj [("message", .str "Request failed"),
        ("response", .obj [("status", .num status), ("data", .obj [("error", .str msg)])])]

/-- A session with nobody signed in, at the location `path`. -/
def session (path : String) : Inst AppShell.State :=
  { st := { user := .null, storage := [], location := path }, inflight := [], log := [] }

end Sample

/-- The message that the specification asks for when sign-in fails after a successful
registration. -/
def signInFailedMessage : String :=
  "registered, but sign-in failed — please sign in manually"

/-! ### Unfolding of the handler combinators -/

theorem bind_proc {α β : Type} (p : Proc α) (f : α → Proc β) : (p >>= f) = Proc.bind p f := rfl

theorem pure_proc {α : Type} (a : α) : (pure a : Proc α) = Proc.ret a := rfl

theorem tryCatch_proc {α : Type} (p : Proc α) (h : JSVal → Proc α) :
    MonadExcept.tryCatch p h = Proc.tryCatch p h := rfl

theorem tryFinally_proc {α β : Type} (p : Proc α) (f : Proc β) :
    tryFinally p f = Proc.bind (Proc.tryFinally' p fun _ => f) fun x => Proc.ret x.1 := rfl

theorem Inst.settle_last {σ : Type} (apply : Eff → σ → σ) (r : Except JSVal JSVal)
    (s : σ) (ts : List Suspended) (t : Suspended) (l : List Ev) :
    Inst.settle apply ts.length r { st := s, inflight := ts ++ [t], log := l } =
      (t.resume r).exec apply { st := s, inflight := ts, log := l } := by
  simp [Inst.settle, List.eraseIdx_append_of_length_le]

/-! ### Lemmas on values and routes -/

theorem strictEqStr_iff (v : JSVal) (s : String) : strictEqStr v s = true ↔ v = .str s := by
  cases v <;> simp [strictEqStr]

theorem routeElement_admin (user : JSVal) :
    AppShell.routeElement "/admin" user =
      if user.truthy && (match getMember user "role" with
                         | .ok role => strictEqStr role "admin"
                         | .error _ => false)
      then .AdminPanel user else .Navigate "/login" := by
  rfl

theorem routeElement_upload (user : JSVal) :
    AppShell.routeElement "/upload" user =
      if user.truthy then .Upload user else .Navigate "/login" := by
  rfl

theorem routeElement_dashboard (user : JSVal) :
    AppShell.routeElement "/dashboard" user =
      if user.truthy then .Dashboard user else .Navigate "/login" := by
  rfl

/-! ### The invariant of a mounted `Upload` -/

theorem Upload.submit_inv (user : JSVal) (file : Option File) (docType : String)
    (i : Inst Upload.State) (hl : i.st.loading = false) (hi : Upload.Inv i) :
    Upload.Inv ((Upload.submit user file docType).exec Upload.apply i) := by
  obtain ⟨s, ts, l⟩ := i
  have hts : ts = [] := hi.2.1 hl
  subst hts
  simp only at hl
  cases file with
  | none =>
    simp [Upload.submit, Proc.exec, perform, Upload.apply, Upload.Inv, hl]
  | some f =>
    cases hu : getMember user "user_id" with
    | error e =>
      simp only [hu, Upload.submit, Proc.exec, perform, request, bind_proc, pure_proc,
        tryCatch_proc, tryFinally_proc, Proc.bind, Proc.tryCatch, Proc.tryFinally',
        Proc.eval, Upload.apply, Upload.Inv]
      cases hm : responseField e "error" <;>
      simp [hm, Proc.exec, Proc.bind, Proc.tryCatch, Proc.tryFinally', Upload.apply]
    | ok uid =>
      simp only [hu, Upload.submit, Proc.exec, perform, request, bind_proc, pure_proc,
        tryCatch_proc, tryFinally_proc, Proc.bind, Proc.tryCatch, Proc.tryFinally',
        Proc.eval, Upload.apply, Upload.Inv]
      refine ⟨by simp, by simp, ?_⟩
      intro t ht
      simp at ht
      subst ht
      intro r j
      obtain ⟨s', ts', l'⟩ := j
      cases r with
      | ok res =>
        cases hd : getMember res "data" with
        | ok d =>
          simp [hd, Proc.exec, Proc.bind, Proc.tryCatch, Proc.tryFinally', Proc.eval, Upload.apply]
        | error e =>
          cases hm : responseField e "error" <;>
          simp [hd, hm, Proc.exec, Proc.bind, Proc.tryCatch, Proc.tryFinally', Proc.eval,
            Upload.apply]
      | error e =>
        cases hm : responseField e "error" <;>
        simp [hm, Proc.exec, Proc.bind, Proc.tryCatch, Proc.tryFinally', Proc.eval, Upload.apply]

theorem Upload.settle_inv (i : Inst Upload.State) (n : Nat) (r : Except JSVal JSVal)
    (hi : Upload.Inv i) : Upload.Inv (i.settle Upload.apply n r) := by
  obtain ⟨s, ts, l⟩ := i
  obtain ⟨hlen, hload, hres⟩ := hi
  cases ts with
  | nil => exact ⟨hlen, hload, hres⟩
  | cons t rest =>
    cases rest with
    | cons t2 rest2 => simp at hlen
    | nil =>
      cases n with
      | zero =>
        have ht := hres t (by simp) r { st := s, inflight := [], log := l }
        simp only [Inst.settle, List.get?, List.eraseIdx]
        exact ⟨by simp [ht.2], fun _ => ht.2, by simp [ht.2]⟩
      | succ m => exact ⟨hlen, hload, hres⟩

theorem Upload.step_inv (user : JSVal) (m : Upload.Mounted) (ev : Upload.Event)
    (hsync : ev = .click → m.rendered.loading = m.inst.st.loading)
    (hi : Upload.Inv m.inst) : Upload.Inv (Upload.step user m ev).inst := by
  cases ev with
  | chooseFile f => exact hi
  | chooseDocType t => exact hi
  | render => exact hi
  | settle n r => exact Upload.settle_inv m.inst n r hi
  | click =>
    by_cases hl : m.rendered.loading = true
    · simpa [Upload.step, hl] using hi
    · have hl' : m.rendered.loading = false := by simpa using hl
      have hst : m.inst.st.loading = false := by rw [← hsync rfl]; exact hl'
      simpa [Upload.step, hl'] using
        Upload.submit_inv user m.rendered.file m.rendered.docType m.inst hst hi

theorem Upload.run_inv (user : JSVal) (evs : List Upload.Event) :
    ∀ m : Upload.Mounted, Upload.Inv m.inst → Upload.clicksSeeLoading user m evs = true →
      Upload.Inv (evs.foldl (Upload.step user) m).inst := by
  induction evs with
  | nil => intro m hi _; exact hi
  | cons e es ih =>
    intro m hi hc
    simp only [Upload.clicksSeeLoading, Bool.and_eq_true] at hc
    refine ih _ (Upload.step_inv user m e ?_ hi) hc.2
    intro he
    subst he
    simpa using hc.1

theorem Upload.init_inv : Upload.Inv Upload.Mounted.init.inst :=
  ⟨by simp [Upload.Mounted.init], fun _ => rfl, by simp [Upload.Mounted.init]⟩

/-- Two clicks on the same render of an enabled button: `submit` runs twice and two
upload requests are in flight. -/
theorem Upload.two_clicks_one_render :
    (Upload.run Sample.userA
      [.chooseFile (some ⟨"id.png"⟩), .render, .click, .click]).inst.inflight.length = 2 ∧
    Upload.clicksSeeLoading Sample.userA Upload.Mounted.init
      [.chooseFile (some ⟨"id.png"⟩), .render, .click, .click] = false :=
  ⟨rfl, rfl⟩

/-! ## The claims -/

/-- C1. For every identity held by AppShell, the element of the route `/admin` is the
admin view exactly when the identity is not null and its `role` is the string `admin`;
in every other case it is the redirect to `/login`. -/
theorem admin_route_iff (user : JSVal) :
    (AppShell.routeElement "/admin" user = .AdminPanel user ↔
        (user ≠ JSVal.null ∧ getMember user "role" = .ok (.str "admin"))) ∧
    (¬ (user ≠ JSVal.null ∧ getMember user "role" = .ok (.str "admin")) →
        AppShell.routeElement "/admin" user = .Navigate "/login") := by
  rw [routeElement_admin]
  cases user with
  | obj fields =>
    by_cases h : (fields.lookup "role").getD .undefined = .str "admin"
    · simp [truthy, getMember, h, strictEqStr]
    · simp [truthy, getMember, h, strictEqStr_iff]
  | _ => simp [truthy, getMember, strictEqStr]

theorem admin_route_iff_witness :
    AppShell.routeElement "/admin" (.obj [("user_id", .num 2), ("role", .str "admin")]) =
      .AdminPanel (.obj [("user_id", .num 2), ("role", .str "admin")]) ∧
    AppShell.routeElement "/admin" Sample.userA = .Navigate "/login" ∧
    AppShell.routeElement "/admin" .null = .Navigate "/login" :=
  ⟨(admin_route_iff (.obj [("user_id", .num 2), ("role", .str "admin")])).1.2
      ⟨by simp, rfl⟩,
   (admin_route_iff Sample.userA).2 (by
      have hrole : getMember Sample.userA "role" = .ok (.str "user") := rfl
      simp [hrole]),
   (admin_route_iff .null).2 (by simp)⟩

/-- C2. For each of the paths `/upload` and `/dashboard`, the route element for the
identity `null` is the redirect to `/login`, and not the Upload or Dashboard view. -/
theorem protected_routes_redirect (path : String)
    (h : path = "/upload" ∨ path = "/dashboard") :
    AppShell.routeElement path .null = .Navigate "/login" ∧
    (∀ u, AppShell.routeElement path .null ≠ .Upload u) ∧
    (∀ u, AppShell.routeElement path .null ≠ .Dashboard u) := by
  rcases h with rfl | rfl
  · rw [routeElement_upload]; simp [truthy]
  · rw [routeElement_dashboard]; simp [truthy]

theorem protected_routes_redirect_witness :
    ("/upload" = "/upload" ∨ "/upload" = "/dashboard") ∧
    AppShell.routeElement "/upload" .null = .Navigate "/login" :=
  ⟨Or.inl rfl, (protected_routes_redirect "/upload" (Or.inl rfl)).1⟩

/-- C3. The session load of AppShell never raises: it returns a value for every
parser and every storage. When the record `dv_user` is missing (and `JSON.parse` reads
the text `null` as `null`), or holds a text that `JSON.parse` rejects, the value
returned is `null`. -/
theorem session_load_null (jsonParse : String → Except JSVal JSVal)
    (storage : List (String × String)) :
    (∃ v, AppShell.initUser jsonParse storage = .ok v) ∧
    (storage.lookup "dv_user" = none → jsonParse "null" = .ok .null →
      AppShell.initUser jsonParse storage = .ok .null) ∧
    (∀ s e, storage.lookup "dv_user" = some s → jsonParse s = .error e →
      AppShell.initUser jsonParse storage = .ok .null) := by
  refine ⟨?_, ?_, ?_⟩
  · unfold AppShell.initUser
    cases h : jsonParse ((storage.lookup "dv_user").getD "null") with
    | ok v => exact ⟨v, rfl⟩
    | error e => exact ⟨.null, rfl⟩
  · intro h hn
    simp [AppShell.initUser, h, hn]
    rfl
  · intro s e h hs
    simp [AppShell.initUser, h, hs]
    rfl

theorem session_load_null_witness :
    AppShell.initUser Sample.jsonParse [] = .ok .null ∧
    AppShell.initUser Sample.jsonParse [("dv_user", "\x7b\"user_id\":1,")] = .ok .null ∧
    AppShell.initUser Sample.jsonParse [("dv_user", "undefined")] = .ok .null :=
  ⟨(session_load_null Sample.jsonParse []).2.1 rfl rfl,
   (session_load_null Sample.jsonParse [("dv_user", "\x7b\"user_id\":1,")]).2.2
      "\x7b\"user_id\":1," Sample.parseError rfl rfl,
   (session_load_null Sample.jsonParse [("dv_user", "undefined")]).2.2
      "undefined" Sample.parseError rfl rfl⟩

/-- C4. For every login submission whose response carries a user object `u`, the Login
handler issues the login request and, when it is fulfilled, writes the serialisation
of `u` under `dv_user`, then publishes `u` with `setUser`, then navigates to
`/dashboard`, in that order; afterwards the session state holds `u` in memory and its
serialisation in storage, and the route guard renders the Dashboard at the new
location. -/
theorem login_success (jsonStringify : JSVal → Option String) (email password : String)
    (i : Inst AppShell.State) (res data : JSVal) (fields : List (String × JSVal))
    (hd : getMember res "data" = .ok data)
    (hu : getMember data "user" = .ok (.obj fields)) :
    let u := JSVal.obj fields
    let i1 := (Login.submit jsonStringify email password).exec AppShell.apply i
    let i2 := i1.settle AppShell.apply i.inflight.length (.ok res)
    i1.log = i.log ++ [.eff .preventDefault,
      .request (Login.loginReq email password)] ∧
    i2.log = i1.log ++ [.eff (.setItem "dv_user" (storedText (jsonStringify u))),
      .eff (.setUser u), .eff (.navigate "/dashboard")] ∧
    i2.inflight = i.inflight ∧
    i2.st.user = u ∧
    i2.st.storage.lookup "dv_user" = some (storedText (jsonStringify u)) ∧
    i2.st.location = "/dashboard" ∧
    AppShell.view i2.st = .Dashboard u ∧
    AppShell.routeElement "/dashboard" i2.st.user = .Dashboard u := by
  obtain ⟨s, ts, l⟩ := i
  simp only [Login.submit, Proc.exec, perform, request, bind_proc, pure_proc,
    tryCatch_proc, Proc.bind, Proc.tryCatch, Inst.settle_last]
  simp [Proc.eval, Proc.exec, Proc.bind, Proc.tryCatch, hd, hu, AppShell.apply, AppShell.view,
    routeElement_dashboard, truthy]

theorem login_success_witness :
    getMember (Sample.response (.obj [("user", Sample.userA)])) "data" =
      .ok (.obj [("user", Sample.userA)]) ∧
    getMember (.obj [("user", Sample.userA)]) "user" = .ok Sample.userA ∧
    (((Login.submit Sample.jsonStringify "a@b.com" "x").exec AppShell.apply
        (Sample.session "/login")).settle AppShell.apply 0
      (.ok (Sample.response (.obj [("user", Sample.userA)])))).st.storage.lookup "dv_user" =
      some "\x7b\"user_id\":1,\"name\":\"A\",\"role\":\"user\"\x7d" ∧
    AppShell.view
      (((Login.submit Sample.jsonStringify "a@b.com" "x").exec AppShell.apply
        (Sample.session "/login")).settle AppShell.apply 0
      (.ok (Sample.response (.obj [("user", Sample.userA)])))).st = .Dashboard Sample.userA :=
  ⟨rfl, rfl,
   (login_success Sample.jsonStringify "a@b.com" "x" (Sample.session "/login")
      (Sample.response (.obj [("user", Sample.userA)])) (.obj [("user", Sample.userA)])
      [("user_id", .num 1), ("name", .str "A"), ("role", .str "user")] rfl rfl).2.2.2.2.1,
   (login_success Sample.jsonStringify "a@b.com" "x" (Sample.session "/login")
      (Sample.response (.obj [("user", Sample.userA)])) (.obj [("user", Sample.userA)])
      [("user_id", .num 1), ("name", .str "A"), ("role", .str "user")] rfl rfl).2.2.2.2.2.2.1⟩

/-- C5. For every registration submission, the Register handler first issues the
register request alone. When that request is rejected, no login request is issued, the
only further event is the alert of the failure (or the unhandled rejection of the
handler), nothing stays in flight and the session state (identity, storage, location)
is unchanged. When it is fulfilled, the login request is issued next. -/
theorem register_failure_stops (jsonStringify : JSVal → Option String)
    (name email password : String) (i : Inst AppShell.State) (err res : JSVal) :
    let i1 := (Register.submit jsonStringify name email password).exec AppShell.apply i
    let i2 := i1.settle AppShell.apply i.inflight.length (.error err)
    let i3 := i1.settle AppShell.apply i.inflight.length (.ok res)
    i1.requests = i.requests ++ [Register.registerReq name email password] ∧
    i2.requests = i.requests ++ [Register.registerReq name email password] ∧
    (∃ ev, i2.log = i1.log ++ [ev] ∧ ((∃ m, ev = .eff (.alert m)) ∨ ∃ e, ev = .uncaught e)) ∧
    i2.inflight = i.inflight ∧
    i2.st = i.st ∧
    i3.requests = i.requests ++
      [Register.registerReq name email password, Login.loginReq email password] := by
  obtain ⟨s, ts, l⟩ := i
  simp only [Register.submit, Proc.exec, perform, request, bind_proc, pure_proc,
    tryCatch_proc, Proc.bind, Proc.tryCatch, Inst.settle_last]
  cases h : responseField err "error" <;>
  simp [Proc.eval, Proc.exec, Proc.bind, Proc.tryCatch, AppShell.apply, h,
    Inst.requests, List.filterMap_append]

/-- C6, as stated, fails: with the registration fulfilled and the login rejected
without a response, the only alert is `Registration failed`, the same as when the
registration itself is rejected, and the message asked for is not shown. -/
theorem register_login_failure_message_cex :
    (((Register.submit Sample.jsonStringify "A" "a@b.com" "x").exec AppShell.apply
        (Sample.session "/register")).settle AppShell.apply 0
        (.ok (Sample.response .null))).requests =
      [Register.registerReq "A" "a@b.com" "x", Login.loginReq "a@b.com" "x"] ∧
    ((((Register.submit Sample.jsonStringify "A" "a@b.com" "x").exec AppShell.apply
        (Sample.session "/register")).settle AppShell.apply 0
        (.ok (Sample.response .null))).settle AppShell.apply 0
        (.error Sample.networkError)).effects =
      [.preventDefault, .alert (.str "Registration failed")] ∧
    (((Register.submit Sample.jsonStringify "A" "a@b.com" "x").exec AppShell.apply
        (Sample.session "/register")).settle AppShell.apply 0
        (.error Sample.networkError)).effects =
      [.preventDefault, .alert (.str "Registration failed")] ∧
    Eff.alert (.str signInFailedMessage) ∉
      ((((Register.submit Sample.jsonStringify "A" "a@b.com" "x").exec AppShell.apply
        (Sample.session "/register")).settle AppShell.apply 0
        (.ok (Sample.response .null))).settle AppShell.apply 0
        (.error Sample.networkError)).effects := by
  refine ⟨rfl, rfl, rfl, ?_⟩
  have h : ((((Register.submit Sample.jsonStringify "A" "a@b.com" "x").exec AppShell.apply
        (Sample.session "/register")).settle AppShell.apply 0
        (.ok (Sample.response .null))).settle AppShell.apply 0
        (.error Sample.networkError)).effects =
      [.preventDefault, .alert (.str "Registration failed")] := rfl
  rw [h]
  simp [signInFailedMessage]

/-- C6, amended. For every registration submission in which the registration is
fulfilled and the login is rejected with `err`, the Register handler alerts
`err.response?.data?.error` when that is truthy and `Registration failed` otherwise,
which is the alert it shows for the same `err` when the registration itself is
rejected; it issues the login request once and leaves nothing in flight and the
session state unchanged. -/
theorem register_login_failure (jsonStringify : JSVal → Option String)
    (name email password : String) (i : Inst AppShell.State) (res err msg : JSVal)
    (hmsg : responseField err "error" = .ok msg) :
    let i1 := (Register.submit jsonStringify name email password).exec AppShell.apply i
    let i2 := i1.settle AppShell.apply i.inflight.length (.ok res)
    let i3 := i2.settle AppShell.apply i.inflight.length (.error err)
    let shown := Ev.eff (.alert (if msg.truthy then msg else .str "Registration failed"))
    i3.log = i.log ++ [.eff .preventDefault,
      .request (Register.registerReq name email password),
      .request (Login.loginReq email password), shown] ∧
    i3.requests = i.requests ++
      [Register.registerReq name email password, Login.loginReq email password] ∧
    i3.inflight = i.inflight ∧
    i3.st = i.st ∧
    (i1.settle AppShell.apply i.inflight.length (.error err)).log = i.log ++
      [.eff .preventDefault, .request (Register.registerReq name email password), shown] := by
  obtain ⟨s, ts, l⟩ := i
  simp only [Register.submit, Proc.exec, perform, request, bind_proc, pure_proc,
    tryCatch_proc, Proc.bind, Proc.tryCatch, Inst.settle_last]
  simp only [Proc.eval, Proc.exec, Proc.bind, Proc.tryCatch, Inst.settle_last]
  simp [Proc.eval, Proc.exec, Proc.bind, Proc.tryCatch, AppShell.apply, hmsg,
    Inst.requests, List.filterMap_append, JSVal.or]

theorem register_login_failure_witness :
    responseField (Sample.serverError 401 "Invalid credentials") "error" =
      .ok (.str "Invalid credentials") ∧
    ((((Register.submit Sample.jsonStringify "A" "a@b.com" "x").exec AppShell.apply
        (Sample.session "/register")).settle AppShell.apply 0
        (.ok (Sample.response .null))).settle AppShell.apply 0
        (.error (Sample.serverError 401 "Invalid credentials"))).log =
      [.eff .preventDefault, .request (Register.registerReq "A" "a@b.com" "x"),
       .request (Login.loginReq "a@b.com" "x"), .eff (.alert (.str "Invalid credentials"))] :=
  ⟨rfl,
   (register_login_failure Sample.jsonStringify "A" "a@b.com" "x" (Sample.session "/register")
      (Sample.response .null) (Sample.serverError 401 "Invalid credentials")
      (.str "Invalid credentials") rfl).1⟩

/-- C8. For every state of the Upload component in which no file is selected, `submit`
issues no request, leaves nothing new in flight, and leaves the state (the loading flag
and the stored result included) unchanged: its only event is the alert
`Select a file`. -/
theorem upload_no_file (user : JSVal) (i : Inst Upload.State) (h : i.st.file = none) :
    let j := (Upload.submit user i.st.file i.st.docType).exec Upload.apply i
    j.requests = i.requests ∧ j.inflight = i.inflight ∧
    j.st.loading = i.st.loading ∧ j.st.result = i.st.result ∧ j.st = i.st ∧
    j.log = i.log ++ [.eff (.alert (.str "Select a file"))] := by
  obtain ⟨s, ts, l⟩ := i
  simp only at h
  simp [h, Upload.submit, Proc.exec, perform, Upload.apply, Inst.requests,
    List.filterMap_append]

theorem upload_no_file_witness :
    ((Upload.submit Sample.userA none "aadhaar").exec Upload.apply
      { st := Upload.State.init, inflight := [], log := [] }).requests = [] ∧
    ((Upload.submit Sample.userA none "aadhaar").exec Upload.apply
      { st := Upload.State.init, inflight := [], log := [] }).st = Upload.State.init :=
  ⟨(upload_no_file Sample.userA { st := Upload.State.init, inflight := [], log := [] } rfl).1,
   (upload_no_file Sample.userA { st := Upload.State.init, inflight := [], log := [] }
      rfl).2.2.2.2.1⟩

/-- C10. For every identity (on which `user_id` can be read, with value `uid`) and
every selected file, `submit` issues one upload request whose `user_id` form value is
`uid` when `uid` is truthy and the number 1 otherwise; in particular it is 1 when
`user_id` is missing (`undefined`), `null` or 0. -/
theorem upload_user_id (user uid : JSVal) (f : File) (docType : String)
    (i : Inst Upload.State) (h : getMember user "user_id" = .ok uid) :
    let j := (Upload.submit user (some f) docType).exec Upload.apply i
    let sent := Upload.uploadReq f (if uid.truthy then uid else .num 1) docType
    j.requests = i.requests ++ [sent] ∧
    (uid.truthy = true → sent.formField "user_id" = some (.value uid)) ∧
    (uid = .undefined ∨ uid = .null ∨ uid = .num 0 →
      sent.formField "user_id" = some (.value (.num 1))) := by
  obtain ⟨s, ts, l⟩ := i
  refine ⟨?_, ?_, ?_⟩
  · simp [h, Upload.submit, Proc.exec, perform, request, bind_proc, pure_proc,
      tryCatch_proc, tryFinally_proc, Proc.bind, Proc.tryCatch, Proc.tryFinally', Proc.eval,
      Upload.apply, Inst.requests, List.filterMap_append, JSVal.or]
  · intro ht
    simp only [ht, if_true]
    rfl
  · rintro (rfl | rfl | rfl) <;> rfl

theorem upload_user_id_witness :
    getMember (.obj [("name", .str "A"), ("user_id", .num 0)]) "user_id" = .ok (.num 0) ∧
    ((Upload.submit (.obj [("name", .str "A"), ("user_id", .num 0)]) (some ⟨"id.png"⟩)
        "passport").exec Upload.apply
      { st := Upload.State.init, inflight := [], log := [] }).requests =
      [Upload.uploadReq ⟨"id.png"⟩ (.num 1) "passport"] :=
  ⟨rfl,
   (upload_user_id (.obj [("name", .str "A"), ("user_id", .num 0)]) (.num 0) ⟨"id.png"⟩
      "passport" { st := Upload.State.init, inflight := [], log := [] } rfl).1⟩


/-- C7, as stated, fails: a mounted Verify with one request in flight issues a second
request on the next click of its button. -/
theorem verify_double_submit_cex :
    (Verify.run [.type "deadbeef", .click]).inflight.length = 1 ∧
    (Verify.run [.type "deadbeef", .click, .click]).inflight.length = 2 ∧
    (Verify.run [.type "deadbeef", .click, .click]).requests =
      [axiosGet [.lit "http://127.0.0.1:5000/verify/", .subst (.str "deadbeef")],
       axiosGet [.lit "http://127.0.0.1:5000/verify/", .subst (.str "deadbeef")]] :=
  ⟨rfl, rfl, rfl⟩

/-- C7, amended. Upload alone guards against a second submission, by the
`disabled={loading}` of its button: a click on a view rendered with `loading` true
changes nothing, and in every run in which each click arrives on a view rendered since
`loading` last changed, at most one upload request is in flight and `loading` is true
while it is. The other handlers have no guard: in every state, whatever is in flight, a
submission of Login or Register, a click of Verify with a non-blank hash, and
`handleAction` of AdminPanel each put one more request in flight. -/
theorem single_flight_upload_only (user : JSVal) (evs : List Upload.Event)
    (hclicks : Upload.clicksSeeLoading user Upload.Mounted.init evs = true)
    (m : Upload.Mounted) (hdisabled : m.rendered.loading = true)
    (jsonStringify : JSVal → Option String) (name email password : String)
    (a : Inst AppShell.State) (v : Inst Verify.State) (hv : jsTrim v.st.hash ≠ "")
    (fields : List (String × JSVal)) (doc_id status : JSVal) (p : Inst AdminPanel.State) :
    ((Upload.run user evs).inst.inflight.length ≤ 1 ∧
      ((Upload.run user evs).inst.inflight ≠ [] →
        (Upload.run user evs).inst.st.loading = true)) ∧
    Upload.step user m .click = m ∧
    ((Login.submit jsonStringify email password).exec AppShell.apply a).inflight.length =
      a.inflight.length + 1 ∧
    ((Register.submit jsonStringify name email password).exec AppShell.apply a).inflight.length =
      a.inflight.length + 1 ∧
    (Verify.step v .click).inflight.length = v.inflight.length + 1 ∧
    ((AdminPanel.handleAction (.obj fields) doc_id status).exec AdminPanel.apply
      p).inflight.length = p.inflight.length + 1 := by
  have hinv := Upload.run_inv user evs Upload.Mounted.init Upload.init_inv hclicks
  refine ⟨⟨hinv.1, ?_⟩, ?_, ?_, ?_, ?_, ?_⟩
  · intro hne
    by_contra hc
    exact hne (hinv.2.1 (by simpa using hc))
  · simp [Upload.step, hdisabled]
  · simp [Login.submit, Proc.exec, perform, request, bind_proc, pure_proc,
      tryCatch_proc, Proc.bind, Proc.tryCatch]
  · simp [Register.submit, Proc.exec, perform, request, bind_proc, pure_proc,
      tryCatch_proc, Proc.bind, Proc.tryCatch]
  · simp [Verify.step, Verify.submit, truthy, hv, Proc.exec, perform, request, bind_proc,
      pure_proc, tryCatch_proc, Proc.bind, Proc.tryCatch]
  · simp [AdminPanel.handleAction, getMember, Proc.eval, Proc.exec, perform, request, bind_proc,
      pure_proc, tryCatch_proc, Proc.bind, Proc.tryCatch]

theorem single_flight_upload_only_witness :
    Upload.clicksSeeLoading Sample.userA Upload.Mounted.init
      [.chooseFile (some ⟨"id.png"⟩), .render, .click, .render, .click] = true ∧
    (Upload.run Sample.userA
      [.chooseFile (some ⟨"id.png"⟩), .render, .click, .render]).rendered.loading = true ∧
    jsTrim "deadbeef" ≠ "" ∧
    (Upload.run Sample.userA
      [.chooseFile (some ⟨"id.png"⟩), .render, .click, .render, .click]).inst.inflight.length
      ≤ 1 ∧
    Upload.step Sample.userA
      (Upload.run Sample.userA [.chooseFile (some ⟨"id.png"⟩), .render, .click, .render])
      .click =
      Upload.run Sample.userA [.chooseFile (some ⟨"id.png"⟩), .render, .click, .render] ∧
    (Verify.step (Verify.run [.type "deadbeef", .click]) .click).inflight.length =
      (Verify.run [.type "deadbeef", .click]).inflight.length + 1 ∧
    (Upload.run Sample.userA
      [.chooseFile (some ⟨"id.png"⟩), .render, .click, .render, .click]).inst.requests =
      [Upload.uploadReq ⟨"id.png"⟩ (.num 1) "aadhaar"] :=
  ⟨rfl, rfl, by decide,
   (single_flight_upload_only Sample.userA
      [.chooseFile (some ⟨"id.png"⟩), .render, .click, .render, .click] rfl
      (Upload.run Sample.userA [.chooseFile (some ⟨"id.png"⟩), .render, .click, .render]) rfl
      Sample.jsonStringify "A" "a@b.com" "x" (Sample.session "/login")
      (Verify.run [.type "deadbeef", .click]) (by decide) [] (.num 7) (.str "rejected")
      { st := { pending := .arr [] }, inflight := [], log := [] }).1.1,
   (single_flight_upload_only Sample.userA
      [.chooseFile (some ⟨"id.png"⟩), .render, .click, .render, .click] rfl
      (Upload.run Sample.userA [.chooseFile (some ⟨"id.png"⟩), .render, .click, .render]) rfl
      Sample.jsonStringify "A" "a@b.com" "x" (Sample.session "/login")
      (Verify.run [.type "deadbeef", .click]) (by decide) [] (.num 7) (.str "rejected")
      { st := { pending := .arr [] }, inflight := [], log := [] }).2.1,
   (single_flight_upload_only Sample.userA
      [.chooseFile (some ⟨"id.png"⟩), .render, .click, .render, .click] rfl
      (Upload.run Sample.userA [.chooseFile (some ⟨"id.png"⟩), .render, .click, .render]) rfl
      Sample.jsonStringify "A" "a@b.com" "x" (Sample.session "/login")
      (Verify.run [.type "deadbeef", .click]) (by decide) [] (.num 7) (.str "rejected")
      { st := { pending := .arr [] }, inflight := [], log := [] }).2.2.2.2.1,
   rfl⟩

/-- C9. For every `doc_id` and `status`, `handleAction` first issues the review
decision: a POST to `/admin/verify/${doc_id}` whose payload is
`{admin_id: user.user_id, status, remarks}`, with remarks `Approved` for the status
`verified` and `Rejected` for every other status; it changes no state. When the request
is fulfilled it issues one `fetchPending` request (GET `/admin/pending`) and alerts
`Action taken`; when it is rejected it alerts `Action failed` and issues nothing. The
pending list is unchanged by `handleAction` itself: it changes only when the
`fetchPending` request is fulfilled, to the `pending_documents` of that response (the
empty list when that is falsy), and stays as it was when that request is rejected. -/
theorem admin_decision (user aid doc_id status : JSVal) (i : Inst AdminPanel.State)
    (res err res2 data docs err2 : JSVal)
    (hu : getMember user "user_id" = .ok aid)
    (hd : getMember res2 "data" = .ok data)
    (hp : getMember data "pending_documents" = .ok docs) :
    let i1 := (AdminPanel.handleAction user doc_id status).exec AdminPanel.apply i
    let done := i1.settle AdminPanel.apply i.inflight.length (.ok res)
    let failed := i1.settle AdminPanel.apply i.inflight.length (.error err)
    let refreshed := done.settle AdminPanel.apply i.inflight.length (.ok res2)
    let stale := done.settle AdminPanel.apply i.inflight.length (.error err2)
    ((∃ remarks : String,
        i1.log = i.log ++ [.request
          { method := .POST,
            url := [.lit "http://127.0.0.1:5000/admin/verify/", .subst doc_id],
            body := .json (.obj [("admin_id", aid), ("status", status),
              ("remarks", .str remarks)]),
            headers := [] }] ∧
        (status = .str "verified" → remarks = "Approved") ∧
        (status ≠ .str "verified" → remarks = "Rejected")) ∧
      i1.st = i.st ∧ i1.inflight.length = i.inflight.length + 1) ∧
    (done.log = i1.log ++
        [.request { method := .GET, url := [.lit "http://127.0.0.1:5000/admin/pending"],
                    body := .empty, headers := [] },
         .eff (.alert (.str "Action taken"))] ∧
      done.st = i.st ∧ done.inflight.length = i.inflight.length + 1) ∧
    (failed.log = i1.log ++ [.eff (.alert (.str "Action failed"))] ∧
      failed.st = i.st ∧ failed.inflight = i.inflight) ∧
    (refreshed.log = done.log ++ [.eff (.setPending (if docs.truthy then docs else .arr []))] ∧
      refreshed.st.pending = (if docs.truthy then docs else .arr []) ∧
      (∀ items, docs = .arr items → refreshed.st.pending = docs) ∧
      refreshed.inflight = i.inflight) ∧
    (stale.log = done.log ++ [.eff (.consoleError err2)] ∧ stale.st = i.st ∧
      stale.inflight = i.inflight) := by
  obtain ⟨s, ts, l⟩ := i
  simp only [AdminPanel.handleAction, AdminPanel.fetchPending, hu, Proc.exec, perform, request,
    spawn, bind_proc, pure_proc, tryCatch_proc, Proc.bind, Proc.tryCatch, Inst.settle_last,
    Proc.eval]
  simp only [Proc.exec, Proc.bind, Proc.tryCatch, Inst.settle_last, Proc.eval, hd, hp]
  refine ⟨⟨?_, by simp, by simp⟩, ?_, ?_, ?_, ?_⟩
  · refine ⟨if strictEqStr status "verified" then "Approved" else "Rejected", rfl, ?_, ?_⟩
    · intro hs
      simp [hs, strictEqStr]
    · intro hs
      have hne : strictEqStr status "verified" = false := by
        cases hb : strictEqStr status "verified" with
        | false => rfl
        | true => exact absurd ((strictEqStr_iff status "verified").1 hb) hs
      simp [hne]
  · simp [AdminPanel.apply, AdminPanel.pendingReq, axiosGet]
  · simp [AdminPanel.apply]
  · simp [AdminPanel.apply, JSVal.or]
    intro items hitems hfalsy
    subst hitems
    simp [truthy] at hfalsy
  · simp [AdminPanel.apply]

theorem admin_decision_witness :
    getMember (.obj [("user_id", .num 2), ("role", .str "admin")]) "user_id" = .ok (.num 2) ∧
    ((AdminPanel.handleAction (.obj [("user_id", .num 2), ("role", .str "admin")]) (.num 7)
        (.str "rejected")).exec AdminPanel.apply
      { st := { pending := .arr [.obj [("doc_id", .num 7)]] }, inflight := [], log := [] }).log =
      [.request
        { method := .POST,
          url := [.lit "http://127.0.0.1:5000/admin/verify/", .subst (.num 7)],
          body := .json (.obj [("admin_id", .num 2), ("status", .str "rejected"),
            ("remarks", .str "Rejected")]),
          headers := [] }] ∧
    (((AdminPanel.handleAction (.obj [("user_id", .num 2), ("role", .str "admin")]) (.num 7)
        (.str "rejected")).exec AdminPanel.apply
      { st := { pending := .arr [.obj [("doc_id", .num 7)]] }, inflight := [], log := [] }).settle
        AdminPanel.apply 0 (.ok (Sample.response (.obj [])))).st.pending =
      .arr [.obj [("doc_id", .num 7)]] ∧
    ((((AdminPanel.handleAction (.obj [("user_id", .num 2), ("role", .str "admin")]) (.num 7)
        (.str "rejected")).exec AdminPanel.apply
      { st := { pending := .arr [.obj [("doc_id", .num 7)]] }, inflight := [], log := [] }).settle
        AdminPanel.apply 0 (.ok (Sample.response (.obj [])))).settle
        AdminPanel.apply 0
        (.ok (Sample.response (.obj [("pending_documents", .arr [])])))).st.pending = .arr [] :=
  ⟨rfl, rfl, rfl,
   (admin_decision (.obj [("user_id", .num 2), ("role", .str "admin")]) (.num 2) (.num 7)
      (.str "rejected")
      { st := { pending := .arr [.obj [("doc_id", .num 7)]] }, inflight := [], log := [] }
      (Sample.response (.obj [])) Sample.networkError
      (Sample.response (.obj [("pending_documents", .arr [])]))
      (.obj [("pending_documents", .arr [])]) (.arr []) Sample.networkError
      rfl rfl rfl).2.2.2.1.2.1⟩

end DocVerifier
